import Mathlib

/-!
Verification of the orchestration / remote-launch subsystem of the
Gemma multi-SUT automation repository.

Shallow embedding of:
* `gui_app_multi_sut.py` — `SUTController` (lifecycle state machine,
  campaign runner, cleanup policy, kill request);
* `sut_service_installer/gemma_service_0.2.py` — the SUT-resident agent
  (process matching, `/kill_process` endpoint, and the `/launch` engine
  phases 4–6 as a discrete-time model);
* `modules/game_launcher.py` — the controller-side launch wrapper.

Time is modelled in whole seconds; each blocking wait advances an explicit
clock by its timeout (or wakes at the cancellation arming time when the
wait is gated on the cancellation token).
-/

namespace Gemma

/-- Controller job states: `self.status` in `SUTController`
(`"Idle" | "Running" | "Completed" | "Failed" | "Stopped" | "Error"`). -/
inductive Status
  | Idle
  | Running
  | Completed
  | Failed
  | Stopped
  | Error
deriving DecidableEq, BEq, Repr

/-- One campaign entry (class `GameEntry` in `gui_app_multi_sut.py`):
display name, workflow config path, launch target, run count, inter-run
delay in seconds. -/
structure GameEntry where
  game_name : String
  config_path : String
  game_path : String
  run_count : Nat
  run_delay : Nat
deriving DecidableEq, Repr

/-- The fields of `SUTController` relevant to the claims
(`SUTController.__init__`, lines 173–227).  `threadAlive` models
`self.thread and self.thread.is_alive()`; `hasNetworkAttr` records
whether the instance has a `network` attribute at all (the class never
assigns `self.network`, so on a fresh instance the attribute is missing
and reading it raises `AttributeError`). -/
structure Controller where
  name : String
  config_path : String
  game_path : String
  run_count : Nat
  run_delay : Nat
  status : Status
  stop_event : Bool
  threadAlive : Bool
  campaign_mode : Bool
  campaign_name : String
  campaign : List GameEntry
  delay_between_games : Nat
  continue_on_failure : Bool
  completed_steps : Nat
  current_run : Nat
  total_runs : Nat
  current_process_id : Option String
  hasNetworkAttr : Bool
deriving DecidableEq, Repr

/-- Defaults set by `SUTController.__init__` (lines 173–227).  Note that
`__init__` never assigns `self.network`, hence `hasNetworkAttr := false`. -/
def initController (name config_path game_path : String) : Controller :=
  { name := name
    config_path := config_path
    game_path := game_path
    run_count := 3
    run_delay := 30
    status := Status.Idle
    stop_event := false
    threadAlive := false
    campaign_mode := false
    campaign_name := "Default"
    campaign := []
    delay_between_games := 120
    continue_on_failure := true
    completed_steps := 0
    current_run := 0
    total_runs := 1
    current_process_id := none
    hasNetworkAttr := false }

/-- `SUTController.start_automation` (lines 274–312).  Returns the boolean
result together with the controller state after the call.  A live worker
makes it return `False` without touching any state; an empty campaign or a
missing config path sets `Error`; otherwise the stop signal is cleared,
progress is reset, `total_runs` is computed and a worker is spawned. -/
def start_automation (c : Controller) : Bool × Controller :=
  if c.threadAlive then
    (false, c)
  else if c.campaign_mode then
    if c.campaign.length = 0 then
      (false, { c with status := Status.Error })
    else
      (true, { c with
        stop_event := false
        status := Status.Running
        completed_steps := 0
        current_run := 0
        total_runs := (c.campaign.map GameEntry.run_count).sum
        threadAlive := true })
  else
    if c.config_path = "" then
      (false, { c with status := Status.Error })
    else
      (true, { c with
        stop_event := false
        status := Status.Running
        completed_steps := 0
        current_run := 0
        total_runs := c.run_count
        threadAlive := true })

/-- `SUTController.stop_automation` (lines 314–332).  Returns the new
state, the boolean return value, and whether the `/cancel_launch` request
was actually sent.  The source wraps the notification in
`try: if self.network: requests.post(...) except Exception: pass`; since
the class never assigns `self.network`, the attribute read raises
`AttributeError`, which the `except` swallows, so the request is sent
only when the instance happens to carry a `network` attribute. -/
def stop_automation (c : Controller) : Controller × Bool × Bool :=
  if c.threadAlive then
    ({ c with stop_event := true, status := Status.Stopped }, true,
      c.hasNetworkAttr)
  else
    (c, false, false)

/-- Python truthiness of the optional tracked process name
(`if self.current_process_id`): `None` and the empty string are falsy. -/
def truthyOpt : Option String → Bool
  | none => false
  | some s => s ≠ ""

/-- The cleanup policy in the `finally` blocks of
`_run_simple_automation` (lines 746–752) and
`_run_state_machine_automation` (lines 891–897):
`if self.current_process_id and self.status in ["Failed", "Stopped"]`
kill, and the `Completed` branch deliberately leaves the game running.
Returns whether a termination of the tracked process is attempted. -/
def runCleanupKill (pid : Option String) (st : Status) : Bool :=
  truthyOpt pid && (st == Status.Failed || st == Status.Stopped)

/-- Failed-run audit entry `f"{game_entry.game_name} (Run {run_num})"`
(line 535). -/
def fmtFailedEntry (nm : String) (n : Nat) : String :=
  nm ++ " (Run " ++ toString n ++ ")"

/-- How the per-game run loop of `_run_campaign` (lines 504–559) exits:
normally (all runs done, or a failing run with `continue_on_failure`
resetting the status to `Running` and breaking to the next game), by
aborting the whole campaign (failing run, `continue_on_failure` false),
or via the stop signal. -/
inductive GOutcome
  | normal
  | abortCampaign
  | stoppedRun
deriving DecidableEq, Repr

/-- The per-game run loop of `_run_campaign` (lines 504–559), for one
`GameEntry` named `nm`: runs are numbered `n, n+1, ...` with the given
number of runs left; `res m = true` means the automation of run `m` set
the status to `Completed`, `false` means `Failed` (the stop signal is the
separate constant `stop`, checked before each run).  Returns the run
numbers actually executed, the audit entries appended to
`self.failed_games`, and how the loop exited.  On a failing run the
source appends `"<name> (Run <n>)"`, attempts to kill the tracked
process, and either breaks to the next game (`continue_on_failure`) or
returns from the campaign.  Inter-run delays only pass time and are not
modelled. -/
def runGameRuns (stop cof : Bool) (nm : String) (res : Nat → Bool) :
    Nat → Nat → List Nat × List String × GOutcome
  | 0, _ => ([], [], GOutcome.normal)
  | Nat.succ rem, n =>
    if stop then ([], [], GOutcome.stoppedRun)
    else if res n then
      let r := runGameRuns stop cof nm res rem (n + 1)
      (n :: r.1, r.2.1, r.2.2)
    else
      ([n], [fmtFailedEntry nm n],
        if cof then GOutcome.normal else GOutcome.abortCampaign)

/-- Result of a campaign execution: the (0-based) indices of the games
whose processing began, the `(game index, run number)` pairs of the runs
actually delegated to the step executor, the accumulated
`self.failed_games` list, and the terminal controller status. -/
structure CampaignResult where
  started : List Nat
  executed : List (Nat × Nat)
  failed : List String
  status : Status
deriving DecidableEq, Repr

/-- `SUTController._run_campaign` (lines 436–598) over the games of the
campaign, starting at game index `gi`.  `cfgOk i` tells whether the
config of game `i` loads (`HybridConfigParser` constructor, lines
477–491; on failure the bare game name is recorded and the campaign
continues or fails per `continue_on_failure`); `res i m` is the result
of run `m` of game `i`.  After the loop the source sets `Completed`
whenever the status is neither `Failed` nor `Stopped` — partial failures
included.  Inter-game delays only pass time and are not modelled. -/
def runCampaignGames (stop cof : Bool) (cfgOk : Nat → Bool)
    (res : Nat → Nat → Bool) : List GameEntry → Nat → CampaignResult
  | [], _ => ⟨[], [], [], Status.Completed⟩
  | g :: rest, gi =>
    if stop then ⟨[], [], [], Status.Stopped⟩
    else if cfgOk gi then
      let r := runGameRuns stop cof g.game_name (res gi) g.run_count 1
      if r.2.2 = GOutcome.stoppedRun then
        ⟨[gi], r.1.map (fun n => (gi, n)), r.2.1, Status.Stopped⟩
      else if r.2.2 = GOutcome.abortCampaign then
        ⟨[gi], r.1.map (fun n => (gi, n)), r.2.1, Status.Failed⟩
      else
        let c := runCampaignGames stop cof cfgOk res rest (gi + 1)
        ⟨gi :: c.started, r.1.map (fun n => (gi, n)) ++ c.executed,
          r.2.1 ++ c.failed, c.status⟩
    else
      if cof then
        let c := runCampaignGames stop cof cfgOk res rest (gi + 1)
        ⟨gi :: c.started, c.executed, g.game_name :: c.failed, c.status⟩
      else ⟨[gi], [], [g.game_name], Status.Failed⟩

/-- Display name of the game at index `j` of a campaign (empty for an
out-of-range index). -/
def gameNameAt (gs : List GameEntry) (j : Nat) : String :=
  match gs[j]? with
  | some g => g.game_name
  | none => ""

/-- Run count of the game at index `j` of a campaign (0 for an
out-of-range index). -/
def runCountAt (gs : List GameEntry) (j : Nat) : Nat :=
  match gs[j]? with
  | some g => g.run_count
  | none => 0

/-!  Agent side: process matching (`gemma_service_0.2.py`). -/

/-- One row of `psutil.process_iter(['pid', 'name', 'exe'])`: the pid,
the reported process name, and the executable path (`None` when
unavailable). -/
structure ProcInfo where
  pid : Nat
  name : String
  exe : Option String
deriving DecidableEq, Repr

/-- Python `str.lower()` on one ASCII character. -/
def lowerChar (c : Char) : Char :=
  if 65 ≤ c.toNat ∧ c.toNat ≤ 90 then Char.ofNat (c.toNat + 32) else c

/-- Python `str.lower()` (ASCII range, which covers process names). -/
def lowerStr (s : String) : String := String.mk (s.toList.map lowerChar)

/-- Characters after the last path separator. -/
def basenameChars (cs : List Char) : List Char :=
  cs.foldl (fun acc c => if c = '/' ∨ c = '\\' then [] else acc ++ [c]) []

/-- `os.path.basename`: the part after the last path separator. -/
def basenameStr (p : String) : String :=
  String.mk (basenameChars p.toList)

/-- `proc_exe = os.path.basename(proc.info['exe']) if proc.info['exe']
else None` (line 737): the basename of the executable, or `none` when
the exe path is missing or empty. -/
def procExeBase (p : ProcInfo) : Option String :=
  match p.exe with
  | some e => if e = "" then none else some (basenameStr e)
  | none => none

/-- The exact-match test of `find_process_by_name` (lines 739–744):
case-insensitive equality of the target against the reported process
name or the executable basename, each guarded by Python truthiness. -/
def matchesExact (target : String) (p : ProcInfo) : Bool :=
  (p.name ≠ "" && (lowerStr p.name == lowerStr target)) ||
  (match procExeBase p with
   | some e => e ≠ "" && (lowerStr e == lowerStr target)
   | none => false)

/-- Python `needle in hay` over characters, prefix test. -/
def charsPrefixOf : List Char → List Char → Bool
  | [], _ => true
  | _ :: _, [] => false
  | a :: as, b :: bs => a == b && charsPrefixOf as bs

/-- Python `needle in hay` over characters: contiguous substring test. -/
def charsInfixOf (needle : List Char) : List Char → Bool
  | [] => needle.isEmpty
  | h :: t => charsPrefixOf needle (h :: t) || charsInfixOf needle t

/-- The legacy partial-match test of `find_process_by_name`
(lines 746–750): the lowercased target occurs as a substring of the
lowercased process name or executable basename. -/
def matchesPartial (target : String) (p : ProcInfo) : Bool :=
  (p.name ≠ "" && charsInfixOf (lowerStr target).toList (lowerStr p.name).toList) ||
  (match procExeBase p with
   | some e => e ≠ "" && charsInfixOf (lowerStr target).toList (lowerStr e).toList
   | none => false)

/-- `find_process_by_name(process_name, exact_only=True)`
(lines 721–757): the first process of the snapshot matching the target,
exactly (default) or by substring (legacy). -/
def find_process_by_name (target : String) (exact_only : Bool)
    (procs : List ProcInfo) : Option ProcInfo :=
  procs.find? (fun p =>
    if exact_only then matchesExact target p else matchesPartial target p)

/-- `terminate_process_by_name` (lines 759–792): terminates every
process whose name or executable basename contains the target as a
substring; returns whether anything was terminated together with the
names terminated. -/
def terminate_process_by_name (target : String) (procs : List ProcInfo) :
    Bool × List String :=
  let victims := procs.filter (fun p => matchesPartial target p)
  (!victims.isEmpty, victims.map ProcInfo.name)

/-- `data.get(key, default)` over a JSON object modelled as an
association list of string fields. -/
def jsonGetStr (body : List (String × String)) (key dflt : String) : String :=
  match body.find? (fun kv => kv.1 == key) with
  | some kv => kv.2
  | none => dflt

/-- Response of the `/kill_process` endpoint: HTTP code, status tag,
the `killed` flag, and the names actually terminated on the agent. -/
structure KillResponse where
  http : Nat
  status : String
  killed : Bool
  terminated : List String
deriving DecidableEq, Repr

/-- The `/kill_process` handler (lines 978–998): reads the
`process_name` field of the request body (defaulting to the empty
string), answers HTTP 400 with status `error` when it is missing or
empty, and otherwise terminates by substring match. -/
def kill_process (body : List (String × String)) (procs : List ProcInfo) :
    KillResponse :=
  let pn := jsonGetStr body "process_name" ""
  if pn = "" then ⟨400, "error", false, []⟩
  else
    let r := terminate_process_by_name pn procs
    ⟨200, "success", r.1, r.2⟩

/-- The JSON body sent by `SUTController.kill_game_process`
(lines 1014–1020): `json={"process_id": pid}` — the process name is
sent under the key `process_id`. -/
def kill_game_process_body (pid : String) : List (String × String) :=
  [("process_id", pid)]

/-!  Agent side: the `/launch` engine (`launch_game`, lines 1421–1649),
modelled over a discrete clock in seconds. -/

/-- `os.path.splitext(...)[0]`: drop the extension starting at the last
dot, unless all characters before that dot are themselves dots. -/
def splitextStem (s : String) : String :=
  match s.toList.reverse.dropWhile (fun c => c ≠ '.') with
  | [] => s
  | _ :: before =>
    if before.all (fun c => c = '.') then s
    else String.mk before.reverse

/-- Python `str.isdigit()` for ASCII digit strings: nonempty and all
digits (line 1444, Steam App ID detection). -/
def isDigitStr (s : String) : Bool :=
  !s.isEmpty && s.toList.all Char.isDigit

/-- `threading.Event.wait(timeout=poll)` started at time `t` against a
cancellation token armed at `armTime` (the agent-global
`launch_cancel_flag`): `some w` when the wait observes the armed token
and wakes early (or immediately when already armed) at time `w`, `none`
when the full `poll` seconds elapse without the token arming. -/
def eventWaitWake (armTime : Option Nat) (t poll : Nat) : Option Nat :=
  match armTime with
  | some a => if a ≤ t + poll then some (Nat.max t a) else none
  | none => none

/-- Outcome of the phase-4 process-detection loop. -/
inductive DetectRes
  | found (p : ProcInfo)
  | cancelled
  | timedOut
deriving DecidableEq, Repr

/-- The phase-4 detection loop (lines 1534–1550):
`while time.time() - start_wait < 60`, each iteration first checks
`find_process_by_name(name)` against the current process snapshot
(`procsAt t`) and breaks on a hit, else blocks on
`launch_cancel_flag.wait(timeout=3)` and returns `cancelled` when the
token wakes it.  `fuel` bounds the iterations for structural recursion;
with 3-second steps from time 0 the loop performs at most 20 iterations,
so any `fuel ≥ 20` realizes the `t < 60` while-condition exactly.
Returns the time the loop finished and its outcome. -/
def detectIter (armTime : Option Nat) (procsAt : Nat → List ProcInfo)
    (name : String) : Nat → Nat → Nat × DetectRes
  | 0, t => (t, DetectRes.timedOut)
  | Nat.succ fuel, t =>
    if t < 60 then
      match find_process_by_name name true (procsAt t) with
      | some p => (t, DetectRes.found p)
      | none =>
        match eventWaitWake armTime t 3 with
        | some w => (w, DetectRes.cancelled)
        | none => detectIter armTime procsAt name fuel (t + 3)
    else (t, DetectRes.timedOut)

/-- Phase 4 as run by `launch_game`: the detection loop from time 0 with
enough fuel for the whole 60-second window. -/
def detectPhase (armTime : Option Nat) (procsAt : Nat → List ProcInfo)
    (name : String) : Nat × DetectRes :=
  detectIter armTime procsAt name 20 0

/-- Environment of one `/launch` execution: when the cancellation token
is armed, the process snapshot at each second, and durations/outcomes of
the non-token-gated operations — `wait_for_window_ready_pywinauto`
(lines 1146–1227: pywinauto `wait('visible', timeout=...)` and
`wait('ready', timeout=...)`, which poll the window only and never
consult `launch_cancel_flag`) and the foreground attempts
(`ensure_window_foreground_v2` / `ensure_window_foreground`,
which sleep in 0.5-second steps, also never consulting the token),
each as functions of their start time. -/
structure AgentEnv where
  armTime : Option Nat
  procsAt : Nat → List ProcInfo
  windowWaitDur : Nat → Nat
  windowWaitRetryDur : Nat → Nat
  fgDur : Nat → Nat
  fgOk : Nat → Bool

/-- Net outcome of phases 4–6: cancelled mid-wait, process never
detected, process detected with final foreground verdict, or the
unhandled `AttributeError` path (the retry loop exhausted with
`actual_process = None`, so building `response_data` at line 1620
dereferences `None` and the outer handler answers HTTP 500). -/
inductive LOutcome
  | cancelled
  | notDetected
  | detected (p : ProcInfo) (fg : Bool)
  | crashed
deriving DecidableEq, Repr

/-- The phase-6 foreground retry loop (lines 1582–1612): up to `n`
attempts; each attempt first blocks on
`launch_cancel_flag.wait(timeout=10)` (token-gated — returns `cancelled`
on wake), then re-runs `find_process_by_name` (overwriting
`actual_process`, possibly with `None`), and on a hit re-waits for the
window and re-attempts foreground, breaking on success.  When the
attempts are exhausted, the response is built from the last
`actual_process` value: a warning when it is a process, the
`AttributeError`/HTTP-500 path when it is `None`. -/
def retryLoop (name : String) (env : AgentEnv) :
    Nat → Nat → Option ProcInfo → Nat × LOutcome
  | 0, t, cur =>
    match cur with
    | some p => (t, LOutcome.detected p false)
    | none => (t, LOutcome.crashed)
  | Nat.succ n, t, _cur =>
    match eventWaitWake env.armTime t 10 with
    | some w => (w, LOutcome.cancelled)
    | none =>
      let tw := t + 10
      match find_process_by_name name true (env.procsAt tw) with
      | some p =>
        let t1 := tw + env.windowWaitRetryDur tw
        let t2 := t1 + env.fgDur t1
        if env.fgOk t1 then (t2, LOutcome.detected p true)
        else retryLoop name env n t2 (some p)
      | none => retryLoop name env n tw none

/-- Phases 4–6 of `launch_game` for expected process name `name`
(lines 1534–1612): detection, then `wait_for_window_ready_pywinauto`
(120 s visible + 30 s ready budget, duration `windowWaitDur`, not
token-gated), then the initial foreground attempt (`fgDur`/`fgOk`, not
token-gated), then — only when foreground is unconfirmed — the
token-gated retry loop with 5 attempts at 10-second intervals. -/
def launchPhases (name : String) (env : AgentEnv) : Nat × LOutcome :=
  match detectPhase env.armTime env.procsAt name with
  | (t, DetectRes.timedOut) => (t, LOutcome.notDetected)
  | (t, DetectRes.cancelled) => (t, LOutcome.cancelled)
  | (t, DetectRes.found p) =>
    let t1 := t + env.windowWaitDur t
    let t2 := t1 + env.fgDur t1
    if env.fgOk t1 then (t2, LOutcome.detected p true)
    else retryLoop name env 5 t2 (some p)

/-- Status tag of a `/launch` response. -/
inductive LStatus
  | success
  | warning
  | error
  | cancelled
deriving DecidableEq, Repr

/-- A `/launch` JSON response: status tag, HTTP code, and the optional
fields the claims mention (lines 1471, 1475, 1554, 1592, 1614–1643,
1649). -/
structure LaunchResponse where
  status : LStatus
  http : Nat
  resolved_path : Option String
  game_process_pid : Option Nat
  game_process_name : Option String
  foreground_confirmed : Option Bool
  warningMsg : Option String
  errMsg : Option String
deriving DecidableEq, Repr

/-- Building the `/launch` response from the phase 4–6 outcome
(lines 1552–1554, 1590–1592, 1614–1645, 1647–1649): `cancelled` when a
token-gated wait fired; `success`/`warning` with the detected process
identity (and the resolved path for store targets) per the
`foreground_confirmed` flag; `warning` with no process identity when
detection timed out but the launch command had been issued; HTTP 500
`error` on the unhandled `AttributeError`. -/
def buildLaunchResponse (gamePath nm : String) (isSteam : Bool)
    (env : AgentEnv) : LaunchResponse :=
  match launchPhases nm env with
  | (_, LOutcome.cancelled) =>
    ⟨LStatus.cancelled, 200, none, none, none, none, none, none⟩
  | (_, LOutcome.notDetected) =>
    ⟨LStatus.warning, 200, if isSteam then some gamePath else none,
      none, none, none,
      some ("Game process " ++ nm ++
        " not detected, but launch command executed"), none⟩
  | (_, LOutcome.detected p fg) =>
    ⟨if fg then LStatus.success else LStatus.warning, 200,
      if isSteam then some gamePath else none,
      some p.pid, some p.name, some fg,
      if fg then none
      else some "Process launched but window not in foreground (timeout)",
      none⟩
  | (_, LOutcome.crashed) =>
    ⟨LStatus.error, 500, none, none, none, none, none,
      some "NoneType object has no attribute pid"⟩

/-- Resolution environment of a `/launch` request: the result of
`resolve_steam_app_path` for store IDs and `os.path.exists` for direct
paths. -/
structure ResolveEnv where
  resolveSteam : Except String String
  pathExists : Bool

/-- A `/launch` request body: `{path, process_id, startup_wait}`
(the wait is consumed by the engine's own timeouts). -/
structure LaunchReq where
  path : String
  process_id : String
deriving DecidableEq, Repr

/-- The `/launch` endpoint (lines 1421–1649) up to its response:
validation (HTTP 400 on a missing path), Steam-ID resolution (HTTP 404
`error` on failure), direct-path existence check (HTTP 404 `error` on a
missing executable), expected-process-name computation
(`process_id` when given, else the stem of the executable basename),
then phases 4–6.  The `steam://` URI form and the spawn step (assumed to
succeed) are not modelled further. -/
def launch_game (req : LaunchReq) (renv : ResolveEnv) (env : AgentEnv) :
    LaunchResponse :=
  if req.path = "" then
    ⟨LStatus.error, 400, none, none, none, none, none,
      some "Game path is required"⟩
  else if isDigitStr req.path then
    match renv.resolveSteam with
    | Except.error e =>
      ⟨LStatus.error, 404, none, none, none, none, none,
        some ("Failed to resolve Steam ID: " ++ e)⟩
    | Except.ok rp =>
      let nm := if req.process_id = "" then splitextStem (basenameStr rp)
                else req.process_id
      buildLaunchResponse rp nm true env
  else if !renv.pathExists then
    ⟨LStatus.error, 404, none, none, none, none, none,
      some "Game executable not found"⟩
  else
    let nm := if req.process_id ≠ "" then req.process_id
              else splitextStem (basenameStr req.path)
    buildLaunchResponse req.path nm false env

/-!  Controller side: the launch wrapper (`modules/game_launcher.py`). -/

/-- `GameLauncher.launch` (lines 25–80): `Except.ok true` models a
normal return, `Except.error msg` models the raised `RuntimeError`.
A `success` status returns `True`; a `warning` status is explicitly
treated as a failure (lines 67–72, \"Foreground is required for
automation - treat warning as failure\") and raises; anything else
raises with the response error message.  The inner `RuntimeError` is
re-caught by the wrapper's own `except` clause and re-wrapped
(lines 78–80). -/
def launcherLaunch (resp : LaunchResponse) : Except String Bool :=
  match resp.status with
  | LStatus.success => Except.ok true
  | LStatus.warning =>
    Except.error ("Game launch error: " ++
      ("Game launch failed: " ++ resp.warningMsg.getD "Unknown warning"))
  | _ =>
    Except.error ("Game launch error: " ++
      ("Game launch failed: " ++ resp.errMsg.getD "Unknown error"))

/-!  Concrete instances used by witnesses and counterexamples. -/

/-- A controller with a live worker (mid-job): `thread.is_alive()` true,
status `Running`. -/
def c5Controller : Controller :=
  { initController "SUT1" "configs/game.yaml" "C:/Games/game.exe" with
      threadAlive := true, status := Status.Running }

/-- A one-game campaign entry. -/
def c6Game : GameEntry :=
  ⟨"Game1", "configs/g1.yaml", "C:/Games/g1.exe", 1, 0⟩

/-- A freshly constructed controller put into campaign mode and started:
the state right after `start_automation` spawned the worker. -/
def c6Started : Controller :=
  (start_automation { initController "SUT1" "" "" with
      campaign_mode := true, campaign := [c6Game] }).2

/-- A process-table row for the real game binary. -/
def procRDR2 : ProcInfo := ⟨4242, "RDR2.exe", some "C:/Games/RDR2/RDR2.exe"⟩

/-- Launch environment for the C1 counterexample: the game process is
present from the start, the cancellation token is armed at second 10 —
while the engine sits inside the 60-second (not token-gated) pywinauto
window wait — and the foreground attempt afterwards succeeds. -/
def c1Env : AgentEnv :=
  { armTime := some 10
    procsAt := fun _ => [procRDR2]
    windowWaitDur := fun _ => 60
    windowWaitRetryDur := fun _ => 0
    fgDur := fun _ => 1
    fgOk := fun _ => true }

/-- Launch environment with the token armed at second 4 and no process
ever visible, used to exercise the token-gated waits. -/
def c1RetryEnv : AgentEnv :=
  { armTime := some 4
    procsAt := fun _ => []
    windowWaitDur := fun _ => 0
    windowWaitRetryDur := fun _ => 0
    fgDur := fun _ => 0
    fgOk := fun _ => false }

/-- Launch environment for the C8 failing input: the game process exists
at detection time, foreground is never confirmed, and the process has
vanished by the time every retry re-checks the table. -/
def c8Env : AgentEnv :=
  { armTime := none
    procsAt := fun t => if t = 0 then [procRDR2] else []
    windowWaitDur := fun _ => 5
    windowWaitRetryDur := fun _ => 0
    fgDur := fun _ => 1
    fgOk := fun _ => false }

/-- Launch environment producing a plain `warning` outcome: process
detected and persistent, foreground never confirmed. -/
def c9Env : AgentEnv :=
  { armTime := none
    procsAt := fun _ => [procRDR2]
    windowWaitDur := fun _ => 5
    windowWaitRetryDur := fun _ => 2
    fgDur := fun _ => 1
    fgOk := fun _ => false }

/-- The agent's `warning` response for a direct-path launch under
`c9Env`. -/
def c9Resp : LaunchResponse :=
  launch_game ⟨"C:/Games/RDR2/RDR2.exe", "RDR2.exe"⟩ ⟨Except.ok "", true⟩ c9Env

/-- A three-game campaign where the middle game has a single run. -/
def c2Campaign : List GameEntry :=
  [⟨"Game1", "configs/c1.yaml", "C:/g1.exe", 2, 0⟩,
   ⟨"Game2", "configs/c2.yaml", "C:/g2.exe", 1, 0⟩,
   ⟨"Game3", "configs/c3.yaml", "C:/g3.exe", 1, 0⟩]

/-- Run results for the C2 witness: every run of game index 1 fails,
all other games succeed. -/
def c2Res : Nat → Nat → Bool := fun i _m => !(i == 1)

/-- A three-game campaign whose middle game has three runs. -/
def c3Campaign : List GameEntry :=
  [⟨"Game1", "configs/c1.yaml", "C:/g1.exe", 1, 0⟩,
   ⟨"Game2", "configs/c2.yaml", "C:/g2.exe", 3, 0⟩,
   ⟨"Game3", "configs/c3.yaml", "C:/g3.exe", 1, 0⟩]

/-- Run results for the C3 witness: game 0 always succeeds, game 1
succeeds on run 1 and fails from run 2 on. -/
def c3Res : Nat → Nat → Bool := fun i m => i == 0 || m == 1

/-!  Helper lemmas about the per-game run loop. -/

/-- With `continue_on_failure` the run loop never aborts the campaign:
a failing run resets the status to `Running` and breaks to the next
game. -/
theorem runGameRuns_cof_outcome (nm : String) (res : Nat → Bool) :
    ∀ (k n : Nat), (runGameRuns false true nm res k n).2.2 = GOutcome.normal := by
  intro k
  induction k with
  | zero => intro n; rfl
  | succ m ih =>
    intro n
    by_cases h : res n = true
    · simp [runGameRuns, h, ih]
    · simp [runGameRuns, h]

/-- The audit entries recorded by the run loop are exactly the executed
failing runs, formatted as `"<name> (Run <n>)"`. -/
theorem runGameRuns_failed_eq (cof : Bool) (nm : String) (res : Nat → Bool) :
    ∀ (k n : Nat),
      (runGameRuns false cof nm res k n).2.1 =
        ((runGameRuns false cof nm res k n).1.filter (fun m => !res m)).map
          (fmtFailedEntry nm) := by
  intro k
  induction k with
  | zero => intro n; rfl
  | succ m ih =>
    intro n
    by_cases h : res n = true
    · simp [runGameRuns, h, ih]
    · simp [runGameRuns, h]

/-- Executed run numbers stay within the window `[n, n + k)`. -/
theorem runGameRuns_mem_bounds (cof : Bool) (nm : String) (res : Nat → Bool) :
    ∀ (k n m : Nat), m ∈ (runGameRuns false cof nm res k n).1 →
      n ≤ m ∧ m < n + k := by
  intro k
  induction k with
  | zero => intro n m h; simp [runGameRuns] at h
  | succ j ih =>
    intro n m h
    by_cases hr : res n = true
    · simp [runGameRuns, hr] at h
      rcases h with h | h
      · omega
      · have := ih (n + 1) m h; omega
    · simp [runGameRuns, hr] at h
      omega

/-- When every run in the window succeeds, the loop executes runs
`n, ..., n + k - 1`, records nothing, and exits normally. -/
theorem runGameRuns_all_ok (cof : Bool) (nm : String) (res : Nat → Bool) :
    ∀ (k n : Nat), (∀ m, n ≤ m → m < n + k → res m = true) →
      runGameRuns false cof nm res k n =
        (List.range' n k, [], GOutcome.normal) := by
  intro k
  induction k with
  | zero => intro n _; rfl
  | succ j ih =>
    intro n h
    have hn : res n = true := h n (Nat.le_refl n) (by omega)
    have ihh := ih (n + 1) (fun m h1 h2 => h m (by omega) (by omega))
    simp [runGameRuns, hn, ihh, List.range'_succ]

/-- When run `f` is the first failure in the window, the loop executes
runs `n..f`, records exactly one formatted entry for run `f`, and exits
normally or aborts according to `continue_on_failure`. -/
theorem runGameRuns_first_fail (cof : Bool) (nm : String) (res : Nat → Bool) :
    ∀ (k n f : Nat), n ≤ f → f < n + k → res f = false →
      (∀ m, n ≤ m → m < f → res m = true) →
      runGameRuns false cof nm res k n =
        (List.range' n (f - n + 1), [fmtFailedEntry nm f],
          if cof then GOutcome.normal else GOutcome.abortCampaign) := by
  intro k
  induction k with
  | zero => intro n f h1 h2 _ _; omega
  | succ j ih =>
    intro n f h1 h2 hf hpre
    by_cases hn : n = f
    · subst hn
      have hr : res n = false := hf
      have he : n - n + 1 = 1 := by omega
      simp [runGameRuns, hr, he, List.range'_one]
    · have hnf : n < f := by omega
      have hrn : res n = true := hpre n (Nat.le_refl n) hnf
      have ihh := ih (n + 1) f (by omega) (by omega) hf
        (fun m hm1 hm2 => hpre m (by omega) hm2)
      have he : f - n + 1 = (f - (n + 1) + 1) + 1 := by omega
      simp [runGameRuns, hrn, ihh, he, List.range'_succ]

/-- Filtering a list of pairs built from a fixed first component. -/
theorem filter_map_pair (gi : Nat) (runs : List Nat) (q : Nat × Nat → Bool) :
    (runs.map (fun n => (gi, n))).filter q =
      (runs.filter (fun n => q (gi, n))).map (fun n => (gi, n)) := by
  induction runs with
  | nil => rfl
  | cons a l ih =>
    by_cases h : q (gi, a) = true <;> simp [h, ih]

/-- Campaign execution with `continue_on_failure = true` and loadable
configs: every game is visited in order, the campaign completes, the
executed games stay in range, and the failed list is exactly the
formatted list of executed failing runs. -/
theorem campaign_cof_true (cfgOk : Nat → Bool) (res : Nat → Nat → Bool)
    (hc : ∀ i, cfgOk i = true) :
    ∀ (gs : List GameEntry) (gi : Nat),
      (runCampaignGames false true cfgOk res gs gi).started =
        List.range' gi gs.length ∧
      (runCampaignGames false true cfgOk res gs gi).status =
        Status.Completed ∧
      (∀ p ∈ (runCampaignGames false true cfgOk res gs gi).executed,
        gi ≤ p.1 ∧ p.1 < gi + gs.length) ∧
      (runCampaignGames false true cfgOk res gs gi).failed =
        ((runCampaignGames false true cfgOk res gs gi).executed.filter
            (fun p => !res p.1 p.2)).map
          (fun p => fmtFailedEntry (gameNameAt gs (p.1 - gi)) p.2) := by
  intro gs
  induction gs with
  | nil =>
    intro gi
    exact ⟨rfl, rfl, by simp [runCampaignGames], by simp [runCampaignGames]⟩
  | cons g rest ih =>
    intro gi
    obtain ⟨ih1, ih2, ih3, ih4⟩ := ih (gi + 1)
    have hout := runGameRuns_cof_outcome g.game_name (res gi) g.run_count 1
    have hfe := runGameRuns_failed_eq true g.game_name (res gi) g.run_count 1
    have hexec :
        (runCampaignGames false true cfgOk res (g :: rest) gi).executed =
          (runGameRuns false true g.game_name (res gi) g.run_count 1).1.map
            (fun n => (gi, n)) ++
            (runCampaignGames false true cfgOk res rest (gi + 1)).executed := by
      simp [runCampaignGames, hc gi, hout]
    refine ⟨?_, ?_, ?_, ?_⟩
    · simp [runCampaignGames, hc gi, hout, ih1, List.range'_succ]
    · simp [runCampaignGames, hc gi, hout, ih2]
    · intro p hp
      rw [hexec] at hp
      simp only [List.mem_append, List.mem_map] at hp
      simp only [List.length_cons]
      rcases hp with ⟨n, _, hpn⟩ | hp
      · subst hpn; simp only []; omega
      · obtain ⟨a, b⟩ := ih3 p hp
        omega
    · have hmain :
          (runCampaignGames false true cfgOk res (g :: rest) gi).failed =
            (runGameRuns false true g.game_name (res gi) g.run_count 1).2.1 ++
              (runCampaignGames false true cfgOk res rest (gi + 1)).failed := by
        simp [runCampaignGames, hc gi, hout]
      rw [hmain, hexec, List.filter_append, List.map_append]
      congr 1
      · rw [filter_map_pair, List.map_map, hfe]
        simp [Function.comp, gameNameAt]
      · rw [ih4]
        apply List.map_congr_left
        intro p hp
        have hmem :
            p ∈ (runCampaignGames false true cfgOk res rest (gi + 1)).executed :=
          (List.mem_filter.mp hp).1
        have hgi : gi + 1 ≤ p.1 := (ih3 p hmem).1
        have e : p.1 - gi = (p.1 - (gi + 1)) + 1 := by omega
        rw [e]
        simp [gameNameAt]

/-- Campaign execution with `continue_on_failure = false` and loadable
configs: when game `i` (0-based, relative to the start index `gi`) has
its first failing run at run `n` and every earlier game's runs all
succeed, the campaign fails, only games `gi..gi+i` are started, no run
after `(gi+i, n)` is executed, and the failed list holds exactly the one
formatted entry. -/
theorem campaign_abort_first_fail (cfgOk : Nat → Bool) (res : Nat → Nat → Bool)
    (hc : ∀ i, cfgOk i = true) :
    ∀ (gs : List GameEntry) (gi i n : Nat),
      i < gs.length → 1 ≤ n → n ≤ runCountAt gs i →
      res (gi + i) n = false →
      (∀ j, j < i → ∀ m, 1 ≤ m → m ≤ runCountAt gs j → res (gi + j) m = true) →
      (∀ m, 1 ≤ m → m < n → res (gi + i) m = true) →
      (runCampaignGames false false cfgOk res gs gi).status = Status.Failed ∧
      (runCampaignGames false false cfgOk res gs gi).started =
        List.range' gi (i + 1) ∧
      (∀ p ∈ (runCampaignGames false false cfgOk res gs gi).executed,
        p.1 < gi + i ∨ (p.1 = gi + i ∧ p.2 ≤ n)) ∧
      (runCampaignGames false false cfgOk res gs gi).failed =
        [fmtFailedEntry (gameNameAt gs i) n] := by
  intro gs
  induction gs with
  | nil => intro gi i n hi; simp at hi
  | cons g rest ih =>
    intro gi i n hi hn1 hn2 hfail hpre hbefore
    cases i with
    | zero =>
      have hrc : n ≤ g.run_count := by simpa [runCountAt] using hn2
      have hfail0 : res gi n = false := by simpa using hfail
      have hbefore0 : ∀ m, 1 ≤ m → m < n → res gi m = true := by
        intro m h1 h2; simpa using hbefore m h1 h2
      have h5 := runGameRuns_first_fail false g.game_name (res gi)
        g.run_count 1 n hn1 (by omega) hfail0
        (fun m hm1 hm2 => hbefore0 m hm1 hm2)
      refine ⟨?_, ?_, ?_, ?_⟩
      · simp [runCampaignGames, hc gi, h5]
      · simp [runCampaignGames, hc gi, h5, List.range'_one]
      · intro p hp
        have hex :
            (runCampaignGames false false cfgOk res (g :: rest) gi).executed =
              (List.range' 1 (n - 1 + 1)).map (fun m => (gi, m)) := by
          simp [runCampaignGames, hc gi, h5]
        rw [hex] at hp
        obtain ⟨m, hm, rfl⟩ := List.mem_map.mp hp
        have hmb := List.mem_range'_1.mp hm
        right
        refine ⟨?_, ?_⟩
        · show gi = gi + 0
          omega
        · show m ≤ n
          omega
      · simp [runCampaignGames, hc gi, h5, gameNameAt]
    | succ j =>
      have hok : ∀ m, 1 ≤ m → m ≤ g.run_count → res gi m = true := by
        intro m h1 h2
        have := hpre 0 (by omega) m h1 (by simpa [runCountAt] using h2)
        simpa using this
      have h4 := runGameRuns_all_ok false g.game_name (res gi) g.run_count 1
        (fun m hm1 hm2 => hok m hm1 (by omega))
      have e1 : gi + (j + 1) = (gi + 1) + j := by omega
      have ihh := ih (gi + 1) j n (by simpa using hi) hn1
        (by simpa [runCountAt] using hn2)
        (by rw [← e1]; exact hfail)
        (by
          intro j' hj' m h1 h2
          have hh := hpre (j' + 1) (by omega) m h1
            (by simpa [runCountAt] using h2)
          have e2 : gi + (j' + 1) = (gi + 1) + j' := by omega
          rw [← e2]; exact hh)
        (by
          intro m h1 h2
          have hh := hbefore m h1 h2
          rw [← e1]; exact hh)
      obtain ⟨ihs, ihstart, ihexec, ihfail⟩ := ihh
      refine ⟨?_, ?_, ?_, ?_⟩
      · simp [runCampaignGames, hc gi, h4, ihs]
      · simp [runCampaignGames, hc gi, h4, ihstart, List.range'_succ]
      · intro p hp
        have hex :
            (runCampaignGames false false cfgOk res (g :: rest) gi).executed =
              (List.range' 1 g.run_count).map (fun m => (gi, m)) ++
                (runCampaignGames false false cfgOk res rest (gi + 1)).executed := by
          simp [runCampaignGames, hc gi, h4]
        rw [hex] at hp
        rcases List.mem_append.mp hp with hp | hp
        · obtain ⟨m, _, rfl⟩ := List.mem_map.mp hp
          left
          show gi < gi + (j + 1)
          omega
        · rcases ihexec p hp with h | ⟨ha, hb⟩
          · left; omega
          · right; exact ⟨by omega, hb⟩
      · simp [runCampaignGames, hc gi, h4, ihfail, gameNameAt]

/-- While the expected process is not yet visible, arming the token at
time `a` inside the detection window makes the loop return `cancelled`
at exactly time `a`: each token-gated 3-second wait observes the armed
token before it elapses. -/
theorem detectIter_cancel (procsAt : Nat → List ProcInfo) (name : String)
    (hfind : ∀ s, find_process_by_name name true (procsAt s) = none) :
    ∀ (fuel t a : Nat), t ≤ a → a < t + 3 * fuel → a < 60 →
      detectIter (some a) procsAt name fuel t = (a, DetectRes.cancelled) := by
  intro fuel
  induction fuel with
  | zero => intro t a h1 h2 _; omega
  | succ n ih =>
    intro t a h1 h2 h3
    have ht : t < 60 := by omega
    rw [detectIter, if_pos ht, hfind t]
    by_cases hc : a ≤ t + 3
    · simp only [eventWaitWake, if_pos hc]
      have hm : Nat.max t a = a := Nat.max_eq_right h1
      rw [hm]
    · simp only [eventWaitWake, if_neg hc]
      exact ih (t + 3) a (by omega) (by omega) h3

/-!  Claim theorems. -/

/-- C1 (counterexample): the claim that every bounded wait of phases
4–6 returns early when the cancellation token becomes armed is false.
Here the process is detected at second 0, the (not token-gated)
pywinauto window wait occupies seconds 0–60, and the token is armed at
second 10 — inside that wait; yet the launch runs to the end of the
window wait and returns `success` at second 61, not `cancelled` within
the poll-interval bound. -/
theorem c1_launch_waits_counterexample :
    c1Env.armTime = some 10 ∧
    detectPhase c1Env.armTime c1Env.procsAt "RDR2.exe" =
      (0, DetectRes.found procRDR2) ∧
    c1Env.windowWaitDur 0 = 60 ∧
    launchPhases "RDR2.exe" c1Env = (61, LOutcome.detected procRDR2 true) ∧
    (buildLaunchResponse "C:/Games/RDR2/RDR2.exe" "RDR2.exe" false
        c1Env).status = LStatus.success :=
  ⟨rfl, rfl, rfl, rfl, rfl⟩

/-- C1 (amended): only the token-gated waits return early — the phase-4
process-detection poll (3-second `Event.wait`) returns `cancelled` at
the arming time itself whenever the token is armed inside the detection
window and the process has not yet appeared, and each 10-second
foreground-retry backoff wait likewise wakes at the arming time; the
phase-5 pywinauto window waits are plain bounded waits that never
observe the token (see the counterexample). -/
theorem c1_token_gated_waits :
    (∀ (procsAt : Nat → List ProcInfo) (name : String) (a : Nat),
      (∀ s, find_process_by_name name true (procsAt s) = none) →
      a < 60 →
      detectPhase (some a) procsAt name = (a, DetectRes.cancelled)) ∧
    (∀ (name : String) (env : AgentEnv) (n t : Nat) (cur : Option ProcInfo)
      (a : Nat), env.armTime = some a → a ≤ t + 10 →
      retryLoop name env (n + 1) t cur = (Nat.max t a, LOutcome.cancelled)) := by
  constructor
  · intro procsAt name a hfind ha
    exact detectIter_cancel procsAt name hfind 20 0 a (Nat.zero_le a)
      (by omega) ha
  · intro name env n t cur a harm hle
    rw [retryLoop]
    simp only [eventWaitWake, harm, if_pos hle]

/-- C1 witness: the token-gated waits fired at concrete inputs. -/
theorem c1_token_gated_waits_witness :
    detectPhase (some 10) (fun _ => []) "RDR2.exe" =
      (10, DetectRes.cancelled) ∧
    retryLoop "RDR2.exe" c1RetryEnv 5 0 none = (Nat.max 0 4, LOutcome.cancelled) :=
  ⟨c1_token_gated_waits.1 (fun _ => []) "RDR2.exe" 10 (fun _ => rfl)
      (by omega),
   c1_token_gated_waits.2 "RDR2.exe" c1RetryEnv 4 0 none 4 rfl (by omega)⟩

/-- C2: with `continue_on_failure = true` and loadable configs, the
campaign visits every game in order, terminates `Completed` regardless
of failures, and its failed-games list is exactly one formatted
`"<game> (Run <n>)"` entry per executed failing run — so its length
equals the number of run-failures observed. -/
theorem c2_continue_on_failure (campaign : List GameEntry)
    (cfgOk : Nat → Bool) (res : Nat → Nat → Bool)
    (hc : ∀ i, cfgOk i = true) :
    (runCampaignGames false true cfgOk res campaign 0).started =
      List.range campaign.length ∧
    (runCampaignGames false true cfgOk res campaign 0).status =
      Status.Completed ∧
    (runCampaignGames false true cfgOk res campaign 0).failed =
      ((runCampaignGames false true cfgOk res campaign 0).executed.filter
          (fun p => !res p.1 p.2)).map
        (fun p => fmtFailedEntry (gameNameAt campaign p.1) p.2) ∧
    (runCampaignGames false true cfgOk res campaign 0).failed.length =
      ((runCampaignGames false true cfgOk res campaign 0).executed.filter
          (fun p => !res p.1 p.2)).length := by
  obtain ⟨h1, h2, _, h4⟩ := campaign_cof_true cfgOk res hc campaign 0
  have h3 :
      (runCampaignGames false true cfgOk res campaign 0).failed =
        ((runCampaignGames false true cfgOk res campaign 0).executed.filter
            (fun p => !res p.1 p.2)).map
          (fun p => fmtFailedEntry (gameNameAt campaign p.1) p.2) := by
    rw [h4]
    apply List.map_congr_left
    intro p _
    rw [Nat.sub_zero]
  refine ⟨?_, h2, h3, ?_⟩
  · rw [h1, List.range_eq_range']
  · rw [h3, List.length_map]

/-- C2 witness: a three-game campaign whose middle game fails its only
run still completes, visiting all three games, with exactly the one
audit entry `"Game2 (Run 1)"`. -/
theorem c2_continue_on_failure_witness :
    (runCampaignGames false true (fun _ => true) c2Res c2Campaign 0).failed =
      ["Game2 (Run 1)"] ∧
    ((runCampaignGames false true (fun _ => true) c2Res c2Campaign 0).started =
      List.range c2Campaign.length ∧
    (runCampaignGames false true (fun _ => true) c2Res c2Campaign 0).status =
      Status.Completed ∧
    (runCampaignGames false true (fun _ => true) c2Res c2Campaign 0).failed =
      ((runCampaignGames false true (fun _ => true) c2Res
            c2Campaign 0).executed.filter
          (fun p => !c2Res p.1 p.2)).map
        (fun p => fmtFailedEntry (gameNameAt c2Campaign p.1) p.2) ∧
    (runCampaignGames false true (fun _ => true) c2Res
          c2Campaign 0).failed.length =
      ((runCampaignGames false true (fun _ => true) c2Res
            c2Campaign 0).executed.filter
          (fun p => !c2Res p.1 p.2)).length) :=
  ⟨by decide, c2_continue_on_failure c2Campaign (fun _ => true) c2Res
      (fun _ => rfl)⟩

/-- C3: with `continue_on_failure = false` and loadable configs, the
first failing run (run `n` of game `i`) makes the campaign terminate
`Failed`: only games `0..i` are ever started, no run of game `i` after
run `n` and no run of any later game is executed, and the failed list
holds exactly the one formatted entry. -/
theorem c3_abort_on_first_failure (campaign : List GameEntry)
    (cfgOk : Nat → Bool) (res : Nat → Nat → Bool)
    (hc : ∀ idx, cfgOk idx = true) (i n : Nat)
    (hi : i < campaign.length) (hn1 : 1 ≤ n)
    (hn2 : n ≤ runCountAt campaign i) (hfail : res i n = false)
    (hpre : ∀ j, j < i → ∀ m, 1 ≤ m → m ≤ runCountAt campaign j →
      res j m = true)
    (hbefore : ∀ m, 1 ≤ m → m < n → res i m = true) :
    (runCampaignGames false false cfgOk res campaign 0).status =
      Status.Failed ∧
    (runCampaignGames false false cfgOk res campaign 0).started =
      List.range (i + 1) ∧
    (∀ p ∈ (runCampaignGames false false cfgOk res campaign 0).executed,
      p.1 < i ∨ (p.1 = i ∧ p.2 ≤ n)) ∧
    (runCampaignGames false false cfgOk res campaign 0).failed =
      [fmtFailedEntry (gameNameAt campaign i) n] := by
  obtain ⟨h1, h2, h3, h4⟩ := campaign_abort_first_fail cfgOk res hc
    campaign 0 i n hi hn1 hn2 (by simpa using hfail)
    (by intro j hj m hm1 hm2; simpa using hpre j hj m hm1 hm2)
    (by intro m hm1 hm2; simpa using hbefore m hm1 hm2)
  refine ⟨h1, ?_, ?_, h4⟩
  · rw [h2, List.range_eq_range']
  · intro p hp
    rcases h3 p hp with h | ⟨ha, hb⟩
    · left; omega
    · right; exact ⟨by omega, hb⟩

/-- C3 witness: game 1 of a three-game campaign fails at run 2 of 3 —
the campaign fails, game 2 is never started, run 3 of game 1 is never
executed, and the audit trail is exactly `"Game2 (Run 2)"`. -/
theorem c3_abort_on_first_failure_witness :
    (runCampaignGames false false (fun _ => true) c3Res c3Campaign 0).status =
      Status.Failed ∧
    (runCampaignGames false false (fun _ => true) c3Res c3Campaign 0).started =
      List.range 2 ∧
    (∀ p ∈ (runCampaignGames false false (fun _ => true) c3Res
        c3Campaign 0).executed, p.1 < 1 ∨ (p.1 = 1 ∧ p.2 ≤ 2)) ∧
    (runCampaignGames false false (fun _ => true) c3Res c3Campaign 0).failed =
      [fmtFailedEntry (gameNameAt c3Campaign 1) 2] :=
  c3_abort_on_first_failure c3Campaign (fun _ => true) c3Res (fun _ => rfl)
    1 2 (by decide) (by decide) (by decide) (by decide)
    (fun j hj m hm1 hm2 => by
      have : j = 0 := by omega
      subst this
      rfl)
    (fun m hm1 hm2 => by
      have : m = 1 := by omega
      subst this
      rfl)

/-- C4: the cleanup policy of both automation runners — a run ending
`Completed` never attempts to terminate the tracked game process, and a
run ending `Failed` or `Stopped` always attempts it when a process is
tracked. -/
theorem c4_cleanup_kill_policy (pid : Option String) :
    runCleanupKill pid Status.Completed = false ∧
    (truthyOpt pid = true →
      runCleanupKill pid Status.Failed = true ∧
      runCleanupKill pid Status.Stopped = true) := by
  constructor
  · unfold runCleanupKill
    cases htr : truthyOpt pid with
    | false => rfl
    | true => rfl
  · intro h
    refine ⟨?_, ?_⟩
    · unfold runCleanupKill
      rw [h]
      rfl
    · unfold runCleanupKill
      rw [h]
      rfl

/-- C4 witness: with the tracked process `RDR2.exe`, the kill is
attempted on `Failed` and `Stopped`. -/
theorem c4_cleanup_kill_policy_witness :
    runCleanupKill (some "RDR2.exe") Status.Failed = true ∧
    runCleanupKill (some "RDR2.exe") Status.Stopped = true :=
  (c4_cleanup_kill_policy (some "RDR2.exe")).2 (by decide)

/-- C5 (counterexample): the claim that `start` on a busy controller
sets the status to `Error` is false — with a live worker the call
returns `False` immediately and the status stays `Running`. -/
theorem c5_busy_start_counterexample :
    (start_automation c5Controller).1 = false ∧
    (start_automation c5Controller).2.status = Status.Running ∧
    Status.Running ≠ Status.Error := by
  decide

/-- C5 (amended): calling `start` while the worker is active returns
`False` and leaves the controller — status, progress, campaign list,
stop signal and worker — entirely unchanged; the status is not set to
`Error`. -/
theorem c5_busy_start_unchanged (c : Controller) (h : c.threadAlive = true) :
    start_automation c = (false, c) := by
  simp [start_automation, h]

/-- C5 witness: the running controller is returned untouched. -/
theorem c5_busy_start_unchanged_witness :
    start_automation c5Controller = (false, c5Controller) :=
  c5_busy_start_unchanged c5Controller rfl

/-- C6 (bug evaluation): on a freshly started controller, `stop` sets
the stop signal and the `Stopped` state and returns `True`, but the
best-effort `/cancel_launch` notification is never sent: the class never
assigns `self.network`, so the attribute read raises `AttributeError`,
swallowed by the surrounding `except`. -/
theorem c6_cancel_notify_never_sent :
    (stop_automation c6Started).2.1 = true ∧
    (stop_automation c6Started).1.stop_event = true ∧
    (stop_automation c6Started).1.status = Status.Stopped ∧
    (stop_automation c6Started).2.2 = false ∧
    c6Started.hasNetworkAttr = false := by
  decide

/-- C7: in its default exact-only mode, process detection selects a
process only when its reported name or its executable basename equals
the target case-insensitively; in particular a running `PlayRDR2.exe`
is never selected for target `RDR2.exe`. -/
theorem c7_exact_match_only :
    (∀ (target : String) (procs : List ProcInfo) (p : ProcInfo),
      find_process_by_name target true procs = some p →
      lowerStr p.name = lowerStr target ∨
        Option.map lowerStr (procExeBase p) = some (lowerStr target)) ∧
    find_process_by_name "RDR2.exe" true
      [⟨77, "PlayRDR2.exe", some "C:/Games/RDR2/PlayRDR2.exe"⟩] = none := by
  constructor
  · intro target procs p h
    have hp := List.find?_some h
    simp only [if_pos] at hp
    rw [matchesExact] at hp
    rcases Bool.or_eq_true_iff.mp hp with hl | hr
    · left
      exact eq_of_beq (Bool.and_eq_true_iff.mp hl).2
    · right
      cases he : procExeBase p with
      | none => rw [he] at hr; exact absurd hr (by simp)
      | some e =>
        rw [he] at hr
        have heq : lowerStr e = lowerStr target :=
          eq_of_beq (Bool.and_eq_true_iff.mp hr).2
        simp [he, heq]
  · decide

/-- C7 witness: a differently-cased exact name is selected, and the
selected process satisfies the case-insensitive equality. -/
theorem c7_exact_match_only_witness :
    lowerStr (⟨4242, "rdr2.EXE", none⟩ : ProcInfo).name =
      lowerStr "RDR2.exe" ∨
    Option.map lowerStr (procExeBase ⟨4242, "rdr2.EXE", none⟩) =
      some (lowerStr "RDR2.exe") :=
  c7_exact_match_only.1 "RDR2.exe" [⟨4242, "rdr2.EXE", none⟩]
    ⟨4242, "rdr2.EXE", none⟩ (by decide)

/-- C8 (bug evaluation): a launch whose process is detected but whose
foreground is never confirmed, and whose process has vanished by the
time the foreground retries re-check the table, does not produce the
`warning` the claim and spec describe: building the response
dereferences `actual_process = None` (`AttributeError`) and the outer
handler answers HTTP 500 `error`. -/
theorem c8_vanished_process_http500 :
    detectPhase c8Env.armTime c8Env.procsAt "RDR2.exe" =
      (0, DetectRes.found procRDR2) ∧
    launch_game ⟨"C:/Games/RDR2/RDR2.exe", "RDR2.exe"⟩
        ⟨Except.ok "", true⟩ c8Env =
      ⟨LStatus.error, 500, none, none, none, none, none,
        some "NoneType object has no attribute pid"⟩ :=
  ⟨rfl, rfl⟩

/-- C9 (counterexample): the claim that the controller-side launch
wrapper treats a `warning` outcome as acceptable is false — on the
agent's `warning` response (process found, foreground unconfirmed) the
wrapper raises `RuntimeError`, so the run fails. -/
theorem c9_warning_raises_counterexample :
    c9Resp.status = LStatus.warning ∧
    launcherLaunch c9Resp =
      Except.error ("Game launch error: " ++ ("Game launch failed: " ++
        "Process launched but window not in foreground (timeout)")) :=
  ⟨rfl, rfl⟩

/-- C9 (amended): the wrapper treats a `warning` launch outcome as a
failure — it raises (returns an error) instead of proceeding; only
`success` proceeds with automation. -/
theorem c9_warning_treated_as_failure (resp : LaunchResponse)
    (h : resp.status = LStatus.warning) :
    launcherLaunch resp =
      Except.error ("Game launch error: " ++ ("Game launch failed: " ++
        resp.warningMsg.getD "Unknown warning")) := by
  simp [launcherLaunch, h]

/-- C9 witness: the amended behaviour at the concrete agent response. -/
theorem c9_warning_treated_as_failure_witness :
    launcherLaunch c9Resp =
      Except.error ("Game launch error: " ++ ("Game launch failed: " ++
        c9Resp.warningMsg.getD "Unknown warning")) :=
  c9_warning_treated_as_failure c9Resp (by decide)

/-- C10: the controller sends the tracked process name under the JSON
key `process_id`, while the agent's `/kill_process` handler reads only
`process_name`; the handler therefore always answers HTTP 400 with
status `error` and terminates nothing — a controller-initiated kill
never terminates the remote game process. -/
theorem c10_kill_key_mismatch (pid : String) (procs : List ProcInfo) :
    kill_process (kill_game_process_body pid) procs =
      ⟨400, "error", false, []⟩ := by
  rfl

end Gemma
